import Mathlib

/-!
Shallow embedding of the hexabot-helper-influxdb event-to-metric pipeline:
field/tag extraction, block-subject classification, point building and the
write logic of the InfluxDB helper class, together with proofs about the
behaviour of each event translator.
-/

set_option autoImplicit false

namespace InfluxdbHelper

/-- JS runtime values as they occur in event payloads and field values.
vComposite models a plain object or array together with its JSON rendering
(the serializer is an external builtin; only its output is relevant here). -/
inductive JsValue where
  | vUndefined : JsValue
  | vNull : JsValue
  | vBool : Bool → JsValue
  | vNum : ℚ → JsValue
  | vStr : String → JsValue
  | vComposite : String → JsValue
  deriving DecidableEq

/-- Truthiness of a JS value, as used by the falsy-dropping filters of the
point writer: empty string, zero, false, null and undefined are falsy. -/
def truthy : JsValue → Bool
  | .vUndefined => false
  | .vNull => false
  | .vBool b => b
  | .vNum q => if q = 0 then false else true
  | .vStr s => if s = "" then false else true
  | .vComposite _ => true

/-- Models the JSON.stringify builtin on the values above; undefined has no
JSON rendering (JSON.stringify returns undefined on it). -/
def jsonStringify : JsValue → Option String
  | .vUndefined => none
  | .vNull => some "null"
  | .vBool true => some "true"
  | .vBool false => some "false"
  | .vNum q => some (toString q)
  | .vStr s => some ("\"" ++ s ++ "\"")
  | .vComposite s => some s

/-- Models the slug library call slug(s, sep) on ASCII input: lower-case the
input and join its alphanumeric runs with the separator. -/
def slug (s : String) (sep : String) : String :=
  String.intercalate sep ((s.toLower.split (fun c => !c.isAlphanum)).filter (fun w => w ≠ ""))

/-- First-match association lookup, mirroring JS property access on the
insertion-ordered objects built below. -/
def lookupKey {α : Type} (k : String) : List (String × α) → Option α
  | [] => none
  | p :: rest => if p.1 = k then some p.2 else lookupKey k rest

/-- Does the object already have the given key. -/
def hasKey {α : Type} (k : String) : List (String × α) → Bool
  | [] => false
  | p :: rest => if p.1 = k then true else hasKey k rest

/-- JS property assignment on an insertion-ordered object: an existing key
keeps its position and receives the new value, a new key is appended. -/
def objSet {α : Type} (m : List (String × α)) (k : String) (v : α) : List (String × α) :=
  if hasKey k m then m.map (fun p => if p.1 = k then (k, v) else p) else m ++ [(k, v)]

/-- JS object spread over an existing object: apply every binding of the
second object onto the first, in order. -/
def objMerge {α : Type} (a b : List (String × α)) : List (String × α) :=
  b.foldl (fun acc p => objSet acc p.1 p.2) a

/-- Subscriber attributes used by the helper. channelName models the JS
expression on the channel object of the subscriber (none when that object is
null); assignedAt models the optional Date through its epoch value in
milliseconds. -/
structure Subscriber where
  id : String
  foreign_id : String
  first_name : String
  last_name : String
  language : String
  channelName : Option String
  assignedAt : Option Int
  deriving DecidableEq

/-- Detected NLP entity: a name and a value. -/
structure NlpEntity where
  entity : String
  value : String
  deriving DecidableEq

/-- NLP payload of an event; the entities list itself may be absent. -/
structure NlpResult where
  entities : Option (List NlpEntity)
  deriving DecidableEq

/-- Channel event wrapper: the sender, the NLP payload, the message payload
and the handler name returned by the channel handler of the event. -/
structure EventWrapper where
  sender : Option Subscriber
  nlp : Option NlpResult
  payload : JsValue
  handlerName : String
  deriving DecidableEq

/-- Conversation block data used by the helper. -/
structure Block where
  name : String
  starts_conversation : Bool
  deriving DecidableEq

/-- Execution context; channel models the optional channel name carried by
the context. -/
structure Context where
  attempt : Int
  channel : Option String
  user : Subscriber
  deriving DecidableEq

/-- Typed InfluxDB field entry, mirroring the InfluxFields value shape with
a type tag and a value. -/
structure InfluxField where
  type : String
  value : JsValue
  deriving DecidableEq

/-- Language entity lookup inside getLanguage: the first NLP entity named
language, when the NLP payload and its entities are present. -/
def languageEntity (e : EventWrapper) : Option NlpEntity :=
  match e.nlp with
  | some n =>
    match n.entities with
    | some es => es.find? (fun a => a.entity = "language")
    | none => none
  | none => none

/-- getLanguage: take the value of the language NLP entity; when that value
is still falsy (absent or empty) and a sender exists, fall back to the
stored subscriber language; otherwise return the value as is. -/
def getLanguage (e : EventWrapper) : Option String :=
  let language : Option String := (languageEntity e).map (fun a => a.value)
  if language = none ∨ language = some "" then
    match e.sender with
    | some sub => some sub.language
    | none => language
  else language

/-- NLP entities that become extra tags: non-empty name and non-empty value,
the language entity excluded. -/
def filteredEntities (e : EventWrapper) : List NlpEntity :=
  match e.nlp with
  | some n =>
    match n.entities with
    | some es => es.filter (fun a => a.entity ≠ "" ∧ a.value ≠ "" ∧ a.entity ≠ "language")
    | none => []
  | none => []

/-- getMessageTags: a language tag (entity value, subscriber language or the
literal unknown), then one tag per remaining NLP entity, a later entity
overriding an earlier one with the same name. -/
def getMessageTags (e : EventWrapper) : List (String × String) :=
  let lang := match getLanguage e with
    | some s => if s = "" then "unknown" else s
    | none => "unknown"
  (filteredEntities e).foldl (fun acc a => objSet acc a.entity a.value) [("language", lang)]

/-- getSubscriberFields: four string fields holding the identity attributes
of the subscriber. -/
def getSubscriberFields (s : Subscriber) : List (String × InfluxField) :=
  [("recipient", ⟨"string", .vStr s.id⟩),
   ("foreign_id", ⟨"string", .vStr s.foreign_id⟩),
   ("first_name", ⟨"string", .vStr s.first_name⟩),
   ("last_name", ⟨"string", .vStr s.last_name⟩)]

/-- getBlockFields: the slugified block name, the postback derived from the
event payload (verbatim when the payload is a string, JSON rendering
otherwise, a missing event making the payload null), the attempt counter
from the context and the conversation-start flag of the block. -/
def getBlockFields (ev : Option EventWrapper) (block : Block) (ctx : Option Context) :
    List (String × InfluxField) :=
  let payload : JsValue := match ev with
    | some e => e.payload
    | none => .vNull
  let postback : JsValue := match payload with
    | .vStr s => .vStr s
    | p =>
      match jsonStringify p with
      | some s => .vStr s
      | none => .vUndefined
  [("block", ⟨"string", .vStr (slug block.name " ")⟩),
   ("postback", ⟨"string", postback⟩),
   ("attempt", ⟨"int", .vNum (match ctx with
      | some c => if c.attempt = 0 then 0 else (c.attempt : ℚ)
      | none => 0)⟩),
   ("start", ⟨"boolean", .vBool block.starts_conversation⟩)]

/-- getPluginFields: type-directed translation of the extra plugin map;
undefined entries are dropped, composite and null values are JSON rendered
into string fields. -/
def getPluginFields (extra : List (String × JsValue)) : List (String × InfluxField) :=
  extra.foldl (fun acc p =>
    match p.2 with
    | .vStr s => objSet acc p.1 ⟨"string", .vStr s⟩
    | .vNum q => objSet acc p.1 ⟨"float", .vNum q⟩
    | .vBool b => objSet acc p.1 ⟨"boolean", .vBool b⟩
    | .vNull => objSet acc p.1 ⟨"string", .vStr "null"⟩
    | .vComposite s => objSet acc p.1 ⟨"string", .vStr s⟩
    | .vUndefined => acc) []

/-- Candidate matching at one position: the first configured candidate that
is a prefix of the suffix of the block name starting at that position. -/
def matchesAt (subjects : List String) (cs : List Char) (i : ℕ) : Option String :=
  subjects.find? (fun s => s.toList.isPrefixOf (cs.drop i))

/-- Capture of the regular expression that getBlockSubject builds: the
alternation of the candidates wrapped in a greedy dot-star on both sides.
The greedy leading dot-star makes the engine backtrack from the rightmost
position, and at a given position the alternatives are tried in configured
order. Candidates are taken as literal words (the settings hold plain words
without metacharacters) and the block name is taken newline free. -/
def captureSubject (subjects : List String) (blockName : String) : Option String :=
  let cs := blockName.toList
  ((List.range (cs.length + 1)).reverse).findSome? (fun i => matchesAt subjects cs i)

/-- getBlockSubject: replace the block name by the captured candidate (an
unmatched pattern leaves the name unchanged), then fall back to the default
subject unless the result is one of the configured candidates. -/
def getBlockSubject (subjects : List String) (default_subject : String) (blockName : String) :
    String :=
  let subject := match captureSubject subjects blockName with
    | some c => c
    | none => blockName
  if subject ∈ subjects then subject else default_subject

/-- Does the candidate occur anywhere inside the name. -/
def occursIn (s name : String) : Bool :=
  (List.range (name.toList.length + 1)).any (fun i => s.toList.isPrefixOf (name.toList.drop i))

/-- Outcome of one call into the sink client. -/
inductive SinkStep where
  | ok : SinkStep
  | err : String → SinkStep
  deriving DecidableEq

/-- Behaviour of the sink for one write session: the outcome of submitting
the point and the outcome of the synchronous session close. -/
structure SinkBehavior where
  write : SinkStep
  close : SinkStep
  deriving DecidableEq

/-- Time-series point as emitted by logEvent: the measurement name, the
fixed float field holding the primary value, the surviving extra fields and
the surviving tags. -/
structure Point where
  name : String
  value : ℚ
  fields : List (String × InfluxField)
  tags : List (String × String)
  deriving DecidableEq

/-- Extra fields surviving the falsy filter of logEvent. -/
def emittedFields (fields : List (String × InfluxField)) : List (String × InfluxField) :=
  fields.filter (fun kv => truthy kv.2.value)

/-- Tags surviving the falsy filter of logEvent; a null tag value (possible
for an absent channel) is dropped like an empty one. -/
def emittedTags (tags : List (String × Option String)) : List (String × String) :=
  tags.filterMap (fun kv =>
    match kv.2 with
    | some s => if s = "" then none else some (kv.1, s)
    | none => none)

/-- Point construction inside logEvent, before the write is attempted. -/
def buildPoint (name : String) (value : ℚ) (tags : List (String × Option String))
    (fields : List (String × InfluxField)) : Point :=
  { name := name
    value := value
    fields := emittedFields fields
    tags := emittedTags tags }

/-- Observable outcome of one logEvent call: the point that was built and
submitted, the message logged at error severity when the sink failed, and
the exception escaping to the caller (none, by the surrounding catch). -/
structure LogOutcome where
  point : Point
  errorLogged : Option String
  thrown : Option String
  deriving DecidableEq

/-- logEvent: build the point, submit it and close the session inside a
try block; a failure of either step is caught and logged at error severity,
and never rethrown to the caller. -/
def logEvent (sink : SinkBehavior) (name : String) (value : ℚ)
    (tags : List (String × Option String)) (fields : List (String × InfluxField)) : LogOutcome :=
  let point := buildPoint name value tags fields
  match sink.write with
  | .err m => { point := point, errorLogged := some m, thrown := none }
  | .ok =>
    match sink.close with
    | .err m => { point := point, errorLogged := some m, thrown := none }
    | .ok => { point := point, errorLogged := none, thrown := none }

/-- Channel tag value of the message-driven translators: the handler name,
or the literal unknown when that name is falsy. -/
def channelOf (e : EventWrapper) : String :=
  if e.handlerName = "" then "unknown" else e.handlerName

/-- Message tag map lifted to nullable tag values, as fed into logEvent. -/
def asTagMap (m : List (String × String)) : List (String × Option String) :=
  m.map (fun kv => (kv.1, some kv.2))

/-- logMessageSentEvent: destructuring a null sender throws before any
point is built; otherwise the message tags plus the overriding channel and
type tags are combined with the subscriber fields. -/
def logMessageSentEvent (sink : SinkBehavior) (ev : EventWrapper) : Except String LogOutcome :=
  match ev.sender with
  | none => .error "TypeError: null subscriber"
  | some sub =>
    let tags := objSet (objSet (asTagMap (getMessageTags ev)) "channel" (some (channelOf ev)))
      "type" (some "message")
    .ok (logEvent sink ("Event - " ++ slug "Message sent" " ") 1 tags (getSubscriberFields sub))

/-- logMessageReceivedEvent: same shape as the sent translator, with the
received measurement name. -/
def logMessageReceivedEvent (sink : SinkBehavior) (ev : EventWrapper) : Except String LogOutcome :=
  match ev.sender with
  | none => .error "TypeError: null subscriber"
  | some sub =>
    let tags := objSet (objSet (asTagMap (getMessageTags ev)) "channel" (some (channelOf ev)))
      "type" (some "message")
    .ok (logEvent sink ("Event - " ++ slug "Message received" " ") 1 tags
      (getSubscriberFields sub))

/-- logBlockEvent: message tags plus channel, type and the classified
subject tag; fields combine the subscriber fields with the block fields. -/
def logBlockEvent (subjects : List String) (default_subject : String) (sink : SinkBehavior)
    (ev : EventWrapper) (block : Block) (ctx : Context) : Except String LogOutcome :=
  match ev.sender with
  | none => .error "TypeError: null subscriber"
  | some sub =>
    let tags := objSet (objSet (objSet (asTagMap (getMessageTags ev))
      "channel" (some (channelOf ev))) "type" (some "block"))
      "subject" (some (getBlockSubject subjects default_subject block.name))
    let fields := getSubscriberFields sub ++ getBlockFields (some ev) block (some ctx)
    .ok (logEvent sink "Block" 1 tags fields)

/-- logFallbackEvent: fallback tags; the block fields are merged in only
when a block is supplied, which also selects the local measurement name. -/
def logFallbackEvent (sink : SinkBehavior) (ev : EventWrapper) (block : Option Block)
    (ctx : Option Context) : Except String LogOutcome :=
  match ev.sender with
  | none => .error "TypeError: null subscriber"
  | some sub =>
    let tags := objSet (objSet (asTagMap (getMessageTags ev)) "channel" (some (channelOf ev)))
      "type" (some "fallback")
    let fields := getSubscriberFields sub ++
      (match block with
       | some b => getBlockFields (some ev) b ctx
       | none => [])
    .ok (logEvent sink (match block with
      | some _ => "Local Fallback"
      | none => "Global Fallback") 1 tags fields)

/-- logInterventionEvent: a write happens only when the subscriber exists
and carries an assignment timestamp with positive epoch value; the primary
value and the delay fields are derived from the absolute distance between
now and the assignment, in milliseconds. A string rendering of a Date is
modelled by an injective rendering of its epoch value. -/
def logInterventionEvent (sink : SinkBehavior) (now : Int) (sub : Option Subscriber) :
    Option LogOutcome :=
  match sub with
  | none => none
  | some s =>
    match s.assignedAt with
    | none => none
    | some t =>
      if 0 < t then
        let delay : Int := |now - t|
        let tags : List (String × Option String) :=
          [("channel", s.channelName), ("type", some "intervention")]
        let fields := getSubscriberFields s ++
          [("assigned_at", ⟨"string", .vStr ("Date " ++ toString t)⟩),
           ("assigned_at_ts", ⟨"int", .vNum (t : ℚ)⟩),
           ("intervention_opened_at", ⟨"string", .vStr ("Date " ++ toString now)⟩),
           ("intervention_opened_at_ts", ⟨"int", .vNum (now : ℚ)⟩),
           ("intervention_delay_sec", ⟨"float", .vNum ((delay : ℚ) / 1000)⟩),
           ("intervention_delay_min", ⟨"float", .vNum ((delay : ℚ) / (60 * 1000))⟩),
           ("intervention_delay_hour", ⟨"float", .vNum ((delay : ℚ) / (60 * 60 * 1000))⟩)]
        some (logEvent sink "Intervention Opened" ((delay : ℚ) / (60 * 1000)) tags fields)
      else none

/-- logPluginEvent: plugin tags (context channel or unknown, type plugin)
with subscriber, block, plugin-title and extra plugin fields merged in
spread order. -/
def logPluginEvent (sink : SinkBehavior) (pluginTitle : String) (block : Block) (ctx : Context)
    (extra : List (String × JsValue)) : LogOutcome :=
  let tags : List (String × Option String) :=
    [("channel", some (match ctx.channel with
       | some c => if c = "" then "unknown" else c
       | none => "unknown")),
     ("type", some "plugin")]
  let fields := objMerge
    (getSubscriberFields ctx.user ++ getBlockFields none block (some ctx) ++
      [("plugin", ⟨"string", .vStr pluginTitle⟩)])
    (getPluginFields extra)
  logEvent sink "Plugin" 1 tags fields

/-- Stat kinds referenced by the stat-entry handler. The enum lives in the
host repository; only the two kinds the switch names are distinguished, the
catch-all constructor carrying any other kind with its string value. -/
inductive BotStatsType where
  | new_users : BotStatsType
  | returning_users : BotStatsType
  | other : String → BotStatsType
  deriving DecidableEq

/-- String value of a stat kind, used as the type tag of a stat point. -/
def BotStatsType.str : BotStatsType → String
  | .new_users => "new_users"
  | .returning_users => "returning_users"
  | .other s => s

/-- logStatEvent: channel, name and type tags with the subscriber fields. -/
def logStatEvent (sink : SinkBehavior) (ty : BotStatsType) (name : String) (sub : Subscriber) :
    LogOutcome :=
  logEvent sink "Stats" 1
    [("channel", sub.channelName), ("name", some name), ("type", some ty.str)]
    (getSubscriberFields sub)

/-- handleStatEntry: the stat hook writes only for the new-users and
returning-users kinds, and only when a subscriber is supplied; every other
kind falls through the default switch arm and does nothing. -/
def handleStatEntry (sink : SinkBehavior) (ty : BotStatsType) (name : String)
    (sub : Option Subscriber) : Option LogOutcome :=
  match ty with
  | .new_users =>
    match sub with
    | some s => some (logStatEvent sink ty name s)
    | none => none
  | .returning_users =>
    match sub with
    | some s => some (logStatEvent sink ty name s)
    | none => none
  | .other _ => none

/-- Jobs model independent logEvent invocations: each carries its own sink
behaviour and translated arguments, with no state shared between them. -/
structure Job where
  sink : SinkBehavior
  name : String
  value : ℚ
  tags : List (String × Option String)
  fields : List (String × InfluxField)

/-- Run a single logging job. -/
def runJob (j : Job) : LogOutcome :=
  logEvent j.sink j.name j.value j.tags j.fields

/-- Run a sequence of logging jobs, one write per event. -/
def runJobs (js : List Job) : List LogOutcome :=
  js.map runJob

section Lemmas

lemma logEvent_point (sink : SinkBehavior) (name : String) (value : ℚ)
    (tags : List (String × Option String)) (fields : List (String × InfluxField)) :
    (logEvent sink name value tags fields).point = buildPoint name value tags fields := by
  unfold logEvent
  cases sink.write with
  | ok => cases sink.close <;> rfl
  | err m => rfl

lemma logEvent_thrown (sink : SinkBehavior) (name : String) (value : ℚ)
    (tags : List (String × Option String)) (fields : List (String × InfluxField)) :
    (logEvent sink name value tags fields).thrown = none := by
  unfold logEvent
  cases sink.write with
  | ok => cases sink.close <;> rfl
  | err m => rfl

lemma mem_emittedFields (fields : List (String × InfluxField)) (k : String) (f : InfluxField) :
    (k, f) ∈ emittedFields fields ↔ ((k, f) ∈ fields ∧ truthy f.value = true) := by
  simp [emittedFields, List.mem_filter]

lemma mem_emittedTags (tags : List (String × Option String)) (k v : String) :
    (k, v) ∈ emittedTags tags ↔ ((k, some v) ∈ tags ∧ v ≠ "") := by
  constructor
  · intro h
    obtain ⟨⟨k', w⟩, hmem, heq⟩ := List.mem_filterMap.mp h
    cases w with
    | none => simp at heq
    | some s =>
      by_cases hs : s = "" <;> simp [hs] at heq
      obtain ⟨rfl, rfl⟩ := heq
      exact ⟨hmem, hs⟩
  · rintro ⟨hmem, hv⟩
    exact List.mem_filterMap.mpr ⟨(k, some v), hmem, by simp [hv]⟩

lemma lookupKey_map_setKey {α : Type} (k : String) (v : α) (m : List (String × α))
    (h : hasKey k m = true) :
    lookupKey k (m.map fun p => if p.1 = k then (k, v) else p) = some v := by
  induction m with
  | nil => simp [hasKey] at h
  | cons p rest ih =>
    by_cases hp : p.1 = k
    · simp [lookupKey, hp]
    · have h' : hasKey k rest = true := by simpa [hasKey, hp] using h
      simp [lookupKey, hp, ih h']

lemma lookupKey_map_setKey_ne {α : Type} (k k' : String) (v : α) (m : List (String × α))
    (h : k' ≠ k) :
    lookupKey k' (m.map fun p => if p.1 = k then (k, v) else p) = lookupKey k' m := by
  induction m with
  | nil => simp
  | cons p rest ih =>
    by_cases hp : p.1 = k
    · simp [lookupKey, hp, Ne.symm h, ih]
    · by_cases hp' : p.1 = k' <;> simp [lookupKey, hp, hp', h, ih]

lemma lookupKey_append_of_not_hasKey {α : Type} (k : String) (m l : List (String × α))
    (h : hasKey k m = false) :
    lookupKey k (m ++ l) = lookupKey k l := by
  induction m with
  | nil => simp
  | cons p rest ih =>
    by_cases hp : p.1 = k
    · simp [hasKey, hp] at h
    · have h' : hasKey k rest = false := by simpa [hasKey, hp] using h
      simp [lookupKey, hp, ih h']

lemma lookupKey_objSet_self {α : Type} (m : List (String × α)) (k : String) (v : α) :
    lookupKey k (objSet m k v) = some v := by
  unfold objSet
  by_cases h : hasKey k m
  · simp only [h, if_true]
    exact lookupKey_map_setKey k v m h
  · simp only [Bool.not_eq_true] at h
    simp only [h, Bool.false_eq_true, if_false]
    rw [lookupKey_append_of_not_hasKey k m _ h]
    simp [lookupKey]

lemma lookupKey_objSet_ne {α : Type} (m : List (String × α)) (k k' : String) (v : α)
    (h : k' ≠ k) :
    lookupKey k' (objSet m k v) = lookupKey k' m := by
  unfold objSet
  by_cases hk : hasKey k m
  · simp only [hk, if_true]
    exact lookupKey_map_setKey_ne k k' v m h
  · simp only [Bool.not_eq_true] at hk
    simp only [hk, Bool.false_eq_true, if_false]
    induction m with
    | nil => simp [lookupKey, Ne.symm h]
    | cons p rest ih =>
      by_cases hp : p.1 = k
      · simp [hasKey, hp] at hk
      · have hk' : hasKey k rest = false := by simpa [hasKey, hp] using hk
        by_cases hp' : p.1 = k' <;> simp [lookupKey, hp', ih hk']

lemma lookupKey_asTagMap (m : List (String × String)) (k : String) :
    lookupKey k (asTagMap m) = (lookupKey k m).map some := by
  induction m with
  | nil => simp [asTagMap, lookupKey]
  | cons p rest ih =>
    by_cases hp : p.1 = k
    · simp [asTagMap, lookupKey, hp]
    · simp only [asTagMap, List.map_cons, lookupKey, hp, if_neg, ite_false]
      simpa [asTagMap] using ih

lemma lookupKey_emittedTags (tags : List (String × Option String)) (k v : String)
    (h : lookupKey k tags = some (some v)) (hv : v ≠ "") :
    lookupKey k (emittedTags tags) = some v := by
  induction tags with
  | nil => simp [lookupKey] at h
  | cons p rest ih =>
    by_cases hp : p.1 = k
    · have h2 : p.2 = some v := by
        have := h
        simp only [lookupKey, hp, if_pos] at this
        simpa using this
      obtain ⟨k', w⟩ := p
      simp only at hp h2
      subst hp h2
      simp [emittedTags, lookupKey, hv]
    · have h' : lookupKey k rest = some (some v) := by
        simpa [lookupKey, hp] using h
      obtain ⟨k', w⟩ := p
      simp only at hp
      cases w with
      | none => simpa [emittedTags, lookupKey, hp] using ih h'
      | some s =>
        by_cases hs : s = ""
        · simpa [emittedTags, lookupKey, hp, hs] using ih h'
        · simpa [emittedTags, lookupKey, hp, hs] using ih h'

lemma lookupKey_emittedFields_some (fields : List (String × InfluxField)) (k : String)
    (f : InfluxField) (h : lookupKey k fields = some f) (ht : truthy f.value = true) :
    lookupKey k (emittedFields fields) = some f := by
  induction fields with
  | nil => simp [lookupKey] at h
  | cons p rest ih =>
    by_cases hp : p.1 = k
    · have h2 : p.2 = f := by simpa [lookupKey, hp] using h
      obtain ⟨k', g⟩ := p
      simp only at hp h2
      subst hp h2
      simp [emittedFields, lookupKey, ht]
    · have h' : lookupKey k rest = some f := by simpa [lookupKey, hp] using h
      obtain ⟨k', g⟩ := p
      simp only at hp
      by_cases hg : truthy g.value = true <;>
        simpa [emittedFields, lookupKey, hp, hg] using ih h'

lemma lookupKey_emittedFields_none (fields : List (String × InfluxField)) (k : String)
    (h : ∀ f, (k, f) ∈ fields → truthy f.value = false) :
    lookupKey k (emittedFields fields) = none := by
  induction fields with
  | nil => simp [emittedFields, lookupKey]
  | cons p rest ih =>
    have hrest : ∀ f, (k, f) ∈ rest → truthy f.value = false := by
      intro f hf
      exact h f (List.mem_cons_of_mem _ hf)
    obtain ⟨k', g⟩ := p
    by_cases hp : k' = k
    · subst hp
      have hg : truthy g.value = false := h g (List.mem_cons_self _ _)
      simpa [emittedFields, lookupKey, hg] using ih hrest
    · by_cases hg : truthy g.value = true <;>
        simpa [emittedFields, lookupKey, hp, hg] using ih hrest

end Lemmas

/-- C1: getBlockSubject always lands in the configured candidate list or on
the default subject: the final membership check forces every non-candidate
replacement result onto the default. -/
theorem c1_classify_membership (subjects : List String) (default_subject name : String) :
    getBlockSubject subjects default_subject name ∈ subjects ∨
      getBlockSubject subjects default_subject name = default_subject := by
  unfold getBlockSubject
  dsimp only
  split_ifs with h
  · exact Or.inl h
  · exact Or.inr rfl

/-- C7: with candidates Greeting and Question and default Other, the block
name Greeting Flow classifies to Greeting and Random Flow to Other. -/
theorem c7_classify_examples :
    getBlockSubject ["Greeting", "Question"] "Other" "Greeting Flow" = "Greeting" ∧
    getBlockSubject ["Greeting", "Question"] "Other" "Random Flow" = "Other" := by
  exact ⟨by decide, by decide⟩

/-- C2: the point emitted by logEvent carries exactly the extra fields and
the tags whose value is truthy, and in particular the spec instance keeps
the lang tag while dropping the zero attempt field. -/
theorem c2_falsy_fields_and_tags_omitted (sink : SinkBehavior) (name : String) (value : ℚ)
    (tags : List (String × Option String)) (fields : List (String × InfluxField)) :
    (∀ k f, (k, f) ∈ (logEvent sink name value tags fields).point.fields ↔
      ((k, f) ∈ fields ∧ truthy f.value = true)) ∧
    (∀ k v, (k, v) ∈ (logEvent sink name value tags fields).point.tags ↔
      ((k, some v) ∈ tags ∧ v ≠ "")) ∧
    lookupKey "lang" (logEvent sink "X" 1 [("lang", some "unknown")]
      [("attempt", ⟨"int", .vNum 0⟩)]).point.tags = some "unknown" ∧
    lookupKey "attempt" (logEvent sink "X" 1 [("lang", some "unknown")]
      [("attempt", ⟨"int", .vNum 0⟩)]).point.fields = none := by
  refine ⟨?_, ?_, ?_, ?_⟩
  · intro k f
    rw [logEvent_point]
    exact mem_emittedFields fields k f
  · intro k v
    rw [logEvent_point]
    exact mem_emittedTags tags k v
  · rw [logEvent_point]
    decide
  · rw [logEvent_point]
    decide

/-- C4: a sink failure inside logEvent is caught and surfaces only as an
error-severity log entry, never as an exception to the caller, and the
outcome of a sequence of logging jobs splits pointwise, so one failed write
cannot change the translation or writing of any later job. -/
theorem c4_sink_failure_contained (sink : SinkBehavior) (name : String) (value : ℚ)
    (tags : List (String × Option String)) (fields : List (String × InfluxField)) (m : String) :
    (logEvent sink name value tags fields).thrown = none ∧
    (sink.write = .err m → (logEvent sink name value tags fields).errorLogged = some m) ∧
    (sink.write = .ok → sink.close = .err m →
      (logEvent sink name value tags fields).errorLogged = some m) ∧
    (∀ js₁ js₂ : List Job, runJobs (js₁ ++ js₂) = runJobs js₁ ++ runJobs js₂) := by
  refine ⟨logEvent_thrown sink name value tags fields, ?_, ?_, ?_⟩
  · intro hw
    unfold logEvent
    rw [hw]
  · intro hw hc
    unfold logEvent
    rw [hw, hc]
  · intro js₁ js₂
    unfold runJobs
    exact List.map_append runJob js₁ js₂

/-- Witness for C4 at failing sinks: the error of a failed submission and
the error of a failed close are logged, and nothing is thrown. -/
theorem c4_sink_failure_contained_witness :
    (logEvent ⟨.err "boom", .ok⟩ "X" 1 [] []).thrown = none ∧
    (logEvent ⟨.err "boom", .ok⟩ "X" 1 [] []).errorLogged = some "boom" ∧
    (logEvent ⟨.ok, .err "late"⟩ "Y" 2 [] []).errorLogged = some "late" :=
  ⟨(c4_sink_failure_contained ⟨.err "boom", .ok⟩ "X" 1 [] [] "boom").1,
   (c4_sink_failure_contained ⟨.err "boom", .ok⟩ "X" 1 [] [] "boom").2.1 rfl,
   (c4_sink_failure_contained ⟨.ok, .err "late"⟩ "Y" 2 [] [] "late").2.2.1 rfl rfl⟩

/-- C6: the stat-entry hook writes exactly when the kind is new users or
returning users and a subscriber is supplied; every other kind, and any
entry without a subscriber, produces nothing. -/
theorem c6_stat_entry_gate (sink : SinkBehavior) (ty : BotStatsType) (name : String)
    (sub : Option Subscriber) :
    (handleStatEntry sink ty name sub).isSome = true ↔
      ((ty = .new_users ∨ ty = .returning_users) ∧ sub.isSome = true) := by
  cases ty <;> cases sub <;> simp [handleStatEntry]

/-- C3: intervention logging is skipped when the subscriber is absent, has
no assignment timestamp or a non-positive one; otherwise exactly one point
named Intervention Opened is written, its primary value is the elapsed
distance to the assignment in minutes, and the emitted second and minute
delay fields stand in the fixed sixty-to-one ratio (both present when the
delay is non-zero, both dropped by the falsy filter when it is zero). -/
theorem c3_intervention_gate_and_delay (sink : SinkBehavior) (now : Int) (sub : Subscriber)
    (t : Int) :
    logInterventionEvent sink now none = none ∧
    (sub.assignedAt = none → logInterventionEvent sink now (some sub) = none) ∧
    (sub.assignedAt = some t → t ≤ 0 → logInterventionEvent sink now (some sub) = none) ∧
    (sub.assignedAt = some t → 0 < t →
      ∃ o, logInterventionEvent sink now (some sub) = some o ∧
        o.point.name = "Intervention Opened" ∧
        o.point.value = ((|now - t| : ℚ)) / (60 * 1000) ∧
        ((lookupKey "intervention_delay_min" o.point.fields =
            some ⟨"float", .vNum (((|now - t| : ℚ)) / (60 * 1000))⟩ ∧
          lookupKey "intervention_delay_sec" o.point.fields =
            some ⟨"float", .vNum (((|now - t| : ℚ)) / 1000)⟩ ∧
          ((|now - t| : ℚ)) / 1000 = 60 * (((|now - t| : ℚ)) / (60 * 1000)) ∧
          now ≠ t) ∨
         (now = t ∧
          lookupKey "intervention_delay_min" o.point.fields = none ∧
          lookupKey "intervention_delay_sec" o.point.fields = none))) := by
  refine ⟨rfl, ?_, ?_, ?_⟩
  · intro h
    simp [logInterventionEvent, h]
  · intro h ht
    simp [logInterventionEvent, h, not_lt.mpr ht]
  · intro h ht
    refine ⟨logEvent sink "Intervention Opened" (((|now - t| : ℚ)) / (60 * 1000))
      [("channel", sub.channelName), ("type", some "intervention")]
      (getSubscriberFields sub ++
        [("assigned_at", ⟨"string", .vStr ("Date " ++ toString t)⟩),
         ("assigned_at_ts", ⟨"int", .vNum (t : ℚ)⟩),
         ("intervention_opened_at", ⟨"string", .vStr ("Date " ++ toString now)⟩),
         ("intervention_opened_at_ts", ⟨"int", .vNum (now : ℚ)⟩),
         ("intervention_delay_sec", ⟨"float", .vNum ((|now - t| : ℚ) / 1000)⟩),
         ("intervention_delay_min", ⟨"float", .vNum ((|now - t| : ℚ) / (60 * 1000))⟩),
         ("intervention_delay_hour", ⟨"float", .vNum ((|now - t| : ℚ) / (60 * 60 * 1000))⟩)]),
      ?_, ?_, ?_, ?_⟩
    · simp [logInterventionEvent, h, ht]
    · rw [logEvent_point]
      rfl
    · rw [logEvent_point]
      rfl
    · rw [logEvent_point]
      by_cases hnt : now = t
      · subst hnt
        refine Or.inr ⟨rfl, ?_, ?_⟩
        · apply lookupKey_emittedFields_none
          intro f hf
          simp only [getSubscriberFields, List.mem_append, List.mem_cons, List.mem_singleton,
            Prod.mk.injEq, List.not_mem_nil, or_false] at hf
          rcases hf with hf | hf <;> simp_all [truthy]
        · apply lookupKey_emittedFields_none
          intro f hf
          simp only [getSubscriberFields, List.mem_append, List.mem_cons, List.mem_singleton,
            Prod.mk.injEq, List.not_mem_nil, or_false] at hf
          rcases hf with hf | hf <;> simp_all [truthy]
      · have hd : |(now : ℚ) - (t : ℚ)| ≠ 0 := by
          rw [abs_ne_zero, sub_ne_zero]
          exact_mod_cast hnt
        refine Or.inl ⟨?_, ?_, by ring, hnt⟩
        · apply lookupKey_emittedFields_some
          · rw [lookupKey_append_of_not_hasKey]
            · simp [lookupKey]
            · simp [getSubscriberFields, hasKey]
          · have hq : |(now : ℚ) - (t : ℚ)| / (60 * 1000) ≠ 0 := by
              intro hq0
              rcases div_eq_zero_iff.mp hq0 with h0 | h0
              · exact hd h0
              · norm_num at h0
            simp [truthy, hq]
        · apply lookupKey_emittedFields_some
          · rw [lookupKey_append_of_not_hasKey]
            · simp [lookupKey]
            · simp [getSubscriberFields, hasKey]
          · have hq : |(now : ℚ) - (t : ℚ)| / 1000 ≠ 0 := by
              intro hq0
              rcases div_eq_zero_iff.mp hq0 with h0 | h0
              · exact hd h0
              · norm_num at h0
            simp [truthy, hq]

/-- Witness for C3: a subscriber assigned one minute before now produces an
Intervention Opened point, while a missing subscriber, a subscriber without
an assignment and a subscriber with a non-positive assignment produce
none. -/
theorem c3_intervention_gate_and_delay_witness :
    logInterventionEvent ⟨.ok, .ok⟩ 120000 none = none ∧
    logInterventionEvent ⟨.ok, .ok⟩ 120000
      (some ⟨"s2", "f2", "A", "B", "en", none, none⟩) = none ∧
    logInterventionEvent ⟨.ok, .ok⟩ 120000
      (some ⟨"s3", "f3", "A", "B", "en", none, some (-5)⟩) = none ∧
    ∃ o, logInterventionEvent ⟨.ok, .ok⟩ 120000
        (some ⟨"s1", "f1", "Jane", "Doe", "en", some "web", some 60000⟩) = some o ∧
      o.point.name = "Intervention Opened" := by
  refine ⟨(c3_intervention_gate_and_delay ⟨.ok, .ok⟩ 120000
      ⟨"s1", "f1", "Jane", "Doe", "en", some "web", some 60000⟩ 60000).1,
    (c3_intervention_gate_and_delay ⟨.ok, .ok⟩ 120000
      ⟨"s2", "f2", "A", "B", "en", none, none⟩ 0).2.1 rfl,
    (c3_intervention_gate_and_delay ⟨.ok, .ok⟩ 120000
      ⟨"s3", "f3", "A", "B", "en", none, some (-5)⟩ (-5)).2.2.1 rfl (by norm_num), ?_⟩
  obtain ⟨o, h1, h2, -⟩ := (c3_intervention_gate_and_delay ⟨.ok, .ok⟩ 120000
    ⟨"s1", "f1", "Jane", "Doe", "en", some "web", some 60000⟩ 60000).2.2.2 rfl (by norm_num)
  exact ⟨o, h1, h2⟩

section ClassifierLemmas

lemma find_head_of {p : String → Bool} (pre : List String) (s : String) (post : List String)
    (hpre : ∀ x ∈ pre, p x = false) (hs : p s = true) :
    List.find? p (pre ++ s :: post) = some s := by
  induction pre with
  | nil =>
    simpa using List.find?_cons_of_pos post hs
  | cons a rest ih =>
    have ha : p a = false := hpre a (List.mem_cons_self _ _)
    rw [List.cons_append, List.find?_cons_of_neg _ (by simp [ha])]
    exact ih (fun x hx => hpre x (List.mem_cons_of_mem _ hx))

lemma findSome_down {β : Type} (f : ℕ → Option β) (b : β) :
    ∀ n i : ℕ, i ≤ n → f i = some b → (∀ j, i < j → j ≤ n → f j = none) →
      ((List.range (n + 1)).reverse.findSome? f) = some b := by
  intro n
  induction n with
  | zero =>
    intro i hi hsome _
    interval_cases i
    simp [List.range_succ, List.findSome?, hsome]
  | succ n ih =>
    intro i hi hsome hnone
    rw [List.range_succ, List.reverse_append]
    simp only [List.reverse_singleton, List.singleton_append, List.findSome?_cons]
    by_cases hi' : i = n + 1
    · subst hi'
      rw [hsome]
    · have hin : i ≤ n := Nat.lt_succ_iff.mp (lt_of_le_of_ne hi hi')
      rw [hnone (n + 1) (Nat.lt_succ_of_le hin) le_rfl]
      exact ih i hin hsome (fun j h1 h2 => hnone j h1 (Nat.le_succ_of_le h2))

end ClassifierLemmas

/-- C8 counterexample: both configured candidates occur inside the block
name, yet the classifier returns the second configured candidate, because
its occurrence starts further right, not the leftmost configured
alternative. -/
theorem c8_counterexample :
    occursIn "Greeting" "Greeting Question" = true ∧
    occursIn "Question" "Greeting Question" = true ∧
    getBlockSubject ["Greeting", "Question"] "Other" "Greeting Question" = "Question" ∧
    getBlockSubject ["Greeting", "Question"] "Other" "Greeting Question" ≠ "Greeting" :=
  ⟨by decide, by decide, by decide, by decide⟩

/-- C8 amended: the greedy leading wildcard makes the capture backtrack
from the right, so the classifier returns the candidate whose occurrence
starts at the rightmost matching position, and only a tie at that same
position is broken by the configured order of the candidates. -/
theorem c8_rightmost_match_wins (default_subject name : String) (i : ℕ)
    (pre post : List String) (s : String)
    (hi : i ≤ name.toList.length)
    (hmatch : s.toList.isPrefixOf (name.toList.drop i) = true)
    (hright : ∀ j ∈ List.range (name.toList.length + 1), i < j →
      ∀ x ∈ pre ++ s :: post, x.toList.isPrefixOf (name.toList.drop j) = false)
    (horder : ∀ x ∈ pre, x.toList.isPrefixOf (name.toList.drop i) = false) :
    getBlockSubject (pre ++ s :: post) default_subject name = s := by
  have hcap : captureSubject (pre ++ s :: post) name = some s := by
    unfold captureSubject
    apply findSome_down _ s name.toList.length i hi
    · unfold matchesAt
      exact find_head_of pre s post horder hmatch
    · intro j hj hjn
      unfold matchesAt
      rw [List.find?_eq_none]
      intro x hx
      have hxf := hright j (List.mem_range.mpr (Nat.lt_succ_of_le hjn)) hj x hx
      simp only [Bool.not_eq_true]
      exact hxf
  unfold getBlockSubject
  rw [hcap]
  dsimp only
  rw [if_pos (List.mem_append_right pre (List.mem_cons_self s post))]

/-- Witness for the amended C8: in the block name holding Greeting then
Question, the Question occurrence at position nine is rightmost and wins. -/
theorem c8_rightmost_match_wins_witness :
    getBlockSubject ["Greeting", "Question"] "Other" "Greeting Question" = "Question" :=
  c8_rightmost_match_wins "Other" "Greeting Question" 9 ["Greeting"] [] "Question"
    (by decide) (by decide) (by decide) (by decide)

section MessageTagLemmas

lemma lookupKey_foldl_objSet (k : String) (es : List NlpEntity) :
    ∀ base : List (String × String),
      lookupKey k (es.foldl (fun acc a => objSet acc a.entity a.value) base) =
        (match es.reverse.find? (fun a => a.entity = k) with
         | some a => some a.value
         | none => lookupKey k base) := by
  induction es with
  | nil => intro base; simp
  | cons a rest ih =>
    intro base
    simp only [List.foldl_cons, List.reverse_cons]
    rw [ih]
    cases hfind : rest.reverse.find? (fun a => a.entity = k) with
    | some b =>
      rw [List.find?_append, hfind]
      simp
    | none =>
      rw [List.find?_append, hfind]
      by_cases ha : a.entity = k
      · rw [← ha, lookupKey_objSet_self]
        simp [ha]
      · rw [lookupKey_objSet_ne _ _ _ _ (Ne.symm ha)]
        simp [ha]

lemma mem_filteredEntities (e : EventWrapper) (a : NlpEntity) (h : a ∈ filteredEntities e) :
    a.entity ≠ "" ∧ a.value ≠ "" ∧ a.entity ≠ "language" := by
  obtain ⟨sender, nlp, payload, handler⟩ := e
  cases nlp with
  | none => simp [filteredEntities] at h
  | some n =>
    obtain ⟨ents⟩ := n
    cases ents with
    | none => simp [filteredEntities] at h
    | some es =>
      simp only [filteredEntities] at h
      have hmem := List.mem_filter.mp h
      simpa using hmem.2

lemma lookupKey_getMessageTags_language (e : EventWrapper) :
    lookupKey "language" (getMessageTags e) =
      some (match getLanguage e with
        | some s => if s = "" then "unknown" else s
        | none => "unknown") := by
  unfold getMessageTags
  rw [lookupKey_foldl_objSet]
  have hnone : (filteredEntities e).reverse.find? (fun a => a.entity = "language") = none := by
    rw [List.find?_eq_none]
    intro a ha
    have hmem := (mem_filteredEntities e a (List.mem_reverse.mp ha)).2.2
    simp [hmem]
  rw [hnone]
  simp [lookupKey]

end MessageTagLemmas

/-- C5 counterexample: a language entity that is present with an empty
value does not supply the language tag (the subscriber language does), and
a present sender whose stored language is empty yields the unknown tag, not
the stored empty value. -/
theorem c5_counterexample :
    languageEntity ⟨some ⟨"id1", "f1", "Jane", "Doe", "fr", some "web", none⟩,
        some ⟨some [⟨"language", ""⟩]⟩, .vNull, "web"⟩ = some ⟨"language", ""⟩ ∧
    lookupKey "language" (getMessageTags ⟨some ⟨"id1", "f1", "Jane", "Doe", "fr", some "web", none⟩,
        some ⟨some [⟨"language", ""⟩]⟩, .vNull, "web"⟩) = some "fr" ∧
    lookupKey "language" (getMessageTags ⟨some ⟨"id2", "f2", "A", "B", "", none, none⟩,
        none, .vNull, "web"⟩) = some "unknown" :=
  ⟨by decide, by decide, by decide⟩

/-- C5 amended: the language tag equals the value of the first language
entity when that value is non-empty, otherwise the stored subscriber
language when a sender is present and that language is non-empty, otherwise
the literal unknown; and for every other key the tag map holds the value of
the last NLP entity of that name with non-empty name and value, the
language entity being excluded. -/
theorem c5_language_tag_resolution (e : EventWrapper) :
    (∀ a, languageEntity e = some a → a.value ≠ "" →
      lookupKey "language" (getMessageTags e) = some a.value) ∧
    ((languageEntity e = none ∨ (∃ a, languageEntity e = some a ∧ a.value = "")) →
      ∀ sub, e.sender = some sub → sub.language ≠ "" →
        lookupKey "language" (getMessageTags e) = some sub.language) ∧
    ((languageEntity e = none ∨ (∃ a, languageEntity e = some a ∧ a.value = "")) →
      (e.sender = none ∨ (∃ sub, e.sender = some sub ∧ sub.language = "")) →
      lookupKey "language" (getMessageTags e) = some "unknown") ∧
    (∀ k, k ≠ "language" →
      lookupKey k (getMessageTags e) =
        ((filteredEntities e).reverse.find? (fun a => a.entity = k)).map (fun a => a.value)) := by
  refine ⟨?_, ?_, ?_, ?_⟩
  · intro a ha hv
    rw [lookupKey_getMessageTags_language]
    have hl : getLanguage e = some a.value := by
      unfold getLanguage
      rw [ha]
      simp [hv]
    rw [hl]
    simp [hv]
  · intro hfalsy sub hsub hlang
    rw [lookupKey_getMessageTags_language]
    have hl : getLanguage e = some sub.language := by
      unfold getLanguage
      rcases hfalsy with h | ⟨a, ha, hav⟩
      · rw [h]
        simp [hsub]
      · rw [ha]
        simp [hav, hsub]
    rw [hl]
    simp [hlang]
  · intro hfalsy hsender
    rw [lookupKey_getMessageTags_language]
    have hl : getLanguage e = none ∨ getLanguage e = some "" := by
      unfold getLanguage
      rcases hfalsy with h | ⟨a, ha, hav⟩
      · rcases hsender with hs | ⟨sub, hs, hsl⟩
        · rw [h, hs]
          simp
        · rw [h, hs]
          simp [hsl]
      · rcases hsender with hs | ⟨sub, hs, hsl⟩
        · rw [ha, hs]
          simp [hav]
        · rw [ha, hs]
          simp [hav, hsl]
    rcases hl with hl | hl
    · rw [hl]
    · rw [hl]
      simp
  · intro k hk
    unfold getMessageTags
    rw [lookupKey_foldl_objSet]
    cases hfind : (filteredEntities e).reverse.find? (fun a => a.entity = k) with
    | some a => simp
    | none => simp [lookupKey, Ne.symm hk]

/-- Witness for the amended C5: a non-empty language entity supplies the
tag, a second entity contributes its own tag, an empty-valued language
entity falls back to the subscriber language, and an empty subscriber
language yields the unknown tag. -/
theorem c5_language_tag_resolution_witness :
    lookupKey "language" (getMessageTags ⟨some ⟨"id1", "f1", "J", "D", "fr", some "web", none⟩,
        some ⟨some [⟨"language", "ar"⟩, ⟨"intent", "greet"⟩]⟩, .vNull, "web"⟩) = some "ar" ∧
    lookupKey "intent" (getMessageTags ⟨some ⟨"id1", "f1", "J", "D", "fr", some "web", none⟩,
        some ⟨some [⟨"language", "ar"⟩, ⟨"intent", "greet"⟩]⟩, .vNull, "web"⟩) = some "greet" ∧
    lookupKey "language" (getMessageTags ⟨some ⟨"id3", "f3", "J", "D", "fr", some "web", none⟩,
        some ⟨some [⟨"language", ""⟩]⟩, .vNull, "web"⟩) = some "fr" ∧
    lookupKey "language" (getMessageTags ⟨some ⟨"id4", "f4", "A", "B", "", none, none⟩,
        none, .vNull, "web"⟩) = some "unknown" := by
  refine ⟨?_, ?_, ?_, ?_⟩
  · exact (c5_language_tag_resolution ⟨some ⟨"id1", "f1", "J", "D", "fr", some "web", none⟩,
      some ⟨some [⟨"language", "ar"⟩, ⟨"intent", "greet"⟩]⟩, .vNull, "web"⟩).1
      ⟨"language", "ar"⟩ (by decide) (by decide)
  · rw [(c5_language_tag_resolution ⟨some ⟨"id1", "f1", "J", "D", "fr", some "web", none⟩,
      some ⟨some [⟨"language", "ar"⟩, ⟨"intent", "greet"⟩]⟩, .vNull, "web"⟩).2.2.2
      "intent" (by decide)]
    decide
  · exact (c5_language_tag_resolution ⟨some ⟨"id3", "f3", "J", "D", "fr", some "web", none⟩,
      some ⟨some [⟨"language", ""⟩]⟩, .vNull, "web"⟩).2.1
      (Or.inr ⟨⟨"language", ""⟩, by decide, rfl⟩)
      ⟨"id3", "f3", "J", "D", "fr", some "web", none⟩ rfl (by decide)
  · exact (c5_language_tag_resolution ⟨some ⟨"id4", "f4", "A", "B", "", none, none⟩,
      none, .vNull, "web"⟩).2.2.1 (Or.inl rfl)
      (Or.inr ⟨⟨"id4", "f4", "A", "B", "", none, none⟩, rfl, rfl⟩)

/-- C9 counterexample: with no event the postback field holds the JSON
rendering of the null payload, the four-character string null, not the
empty string that the claim announces. -/
theorem c9_counterexample :
    lookupKey "postback" (getBlockFields none ⟨"My Block", true⟩ none) =
      some ⟨"string", .vStr "null"⟩ ∧
    JsValue.vStr "null" ≠ JsValue.vStr "" :=
  ⟨by decide, by decide⟩

/-- C9 amended: with no event the postback value is the string null (the
serialized form of the null payload the missing event produces); with an
event the postback is the payload verbatim when that payload is a string,
and its canonical JSON rendering otherwise. -/
theorem c9_postback_value (block : Block) (ctx : Option Context) :
    lookupKey "postback" (getBlockFields none block ctx) = some ⟨"string", .vStr "null"⟩ ∧
    (∀ ev : EventWrapper, ∀ s, ev.payload = .vStr s →
      lookupKey "postback" (getBlockFields (some ev) block ctx) = some ⟨"string", .vStr s⟩) ∧
    (∀ ev : EventWrapper, ∀ r, (∀ s, ev.payload ≠ .vStr s) → jsonStringify ev.payload = some r →
      lookupKey "postback" (getBlockFields (some ev) block ctx) = some ⟨"string", .vStr r⟩) := by
  refine ⟨?_, ?_, ?_⟩
  · simp [getBlockFields, lookupKey, jsonStringify]
  · intro ev s h
    simp [getBlockFields, lookupKey, h]
  · intro ev r hns hr
    cases hp : ev.payload with
    | vStr s => exact absurd hp (hns s)
    | vUndefined => simp [jsonStringify, hp] at hr
    | vNull =>
      simp [jsonStringify, hp] at hr
      simp [getBlockFields, lookupKey, hp, jsonStringify, hr]
    | vBool b =>
      cases b with
      | true =>
        simp [jsonStringify, hp] at hr
        simp [getBlockFields, lookupKey, hp, jsonStringify, hr]
      | false =>
        simp [jsonStringify, hp] at hr
        simp [getBlockFields, lookupKey, hp, jsonStringify, hr]
    | vNum q =>
      simp [jsonStringify, hp] at hr
      simp [getBlockFields, lookupKey, hp, jsonStringify, hr]
    | vComposite s =>
      simp [jsonStringify, hp] at hr
      simp [getBlockFields, lookupKey, hp, jsonStringify, hr]

/-- Witness for the amended C9 at a concrete block: the missing-event,
string-payload and structured-payload cases. -/
theorem c9_postback_value_witness :
    lookupKey "postback" (getBlockFields none ⟨"B", false⟩ none) =
      some ⟨"string", .vStr "null"⟩ ∧
    lookupKey "postback" (getBlockFields (some ⟨none, none, .vStr "hi", "web"⟩) ⟨"B", false⟩ none) =
      some ⟨"string", .vStr "hi"⟩ ∧
    lookupKey "postback"
        (getBlockFields (some ⟨none, none, .vBool true, "web"⟩) ⟨"B", false⟩ none) =
      some ⟨"string", .vStr "true"⟩ := by
  refine ⟨(c9_postback_value ⟨"B", false⟩ none).1, ?_, ?_⟩
  · exact (c9_postback_value ⟨"B", false⟩ none).2.1 ⟨none, none, .vStr "hi", "web"⟩ "hi" rfl
  · exact (c9_postback_value ⟨"B", false⟩ none).2.2 ⟨none, none, .vBool true, "web"⟩ "true"
      (fun s h => JsValue.noConfusion h) rfl

section TagOverrideLemmas

lemma channelOf_ne_empty (ev : EventWrapper) : channelOf ev ≠ "" := by
  unfold channelOf
  by_cases h : ev.handlerName = "" <;> simp [h]

lemma emitted_type_channel (base : List (String × String)) (ch ty : String)
    (hch : ch ≠ "") (hty : ty ≠ "") :
    lookupKey "type" (emittedTags
        (objSet (objSet (asTagMap base) "channel" (some ch)) "type" (some ty))) = some ty ∧
    lookupKey "channel" (emittedTags
        (objSet (objSet (asTagMap base) "channel" (some ch)) "type" (some ty))) = some ch := by
  constructor
  · exact lookupKey_emittedTags _ _ _ (lookupKey_objSet_self _ _ _) hty
  · refine lookupKey_emittedTags _ _ _ ?_ hch
    rw [lookupKey_objSet_ne _ _ _ _ (by decide : ("channel" : String) ≠ "type")]
    exact lookupKey_objSet_self _ _ _

lemma emitted_type_channel_subject (base : List (String × String)) (ch ty sj : String)
    (hch : ch ≠ "") (hty : ty ≠ "") :
    lookupKey "type" (emittedTags (objSet
        (objSet (objSet (asTagMap base) "channel" (some ch)) "type" (some ty))
        "subject" (some sj))) = some ty ∧
    lookupKey "channel" (emittedTags (objSet
        (objSet (objSet (asTagMap base) "channel" (some ch)) "type" (some ty))
        "subject" (some sj))) = some ch := by
  constructor
  · refine lookupKey_emittedTags _ _ _ ?_ hty
    rw [lookupKey_objSet_ne _ _ _ _ (by decide : ("type" : String) ≠ "subject")]
    exact lookupKey_objSet_self _ _ _
  · refine lookupKey_emittedTags _ _ _ ?_ hch
    rw [lookupKey_objSet_ne _ _ _ _ (by decide : ("channel" : String) ≠ "subject")]
    rw [lookupKey_objSet_ne _ _ _ _ (by decide : ("channel" : String) ≠ "type")]
    exact lookupKey_objSet_self _ _ _

end TagOverrideLemmas

/-- C10: the message, block and fallback translators assign the fixed type
tag and the channel tag after spreading the NLP-derived message tags, so
both override any NLP entity tag of the same name, and the channel tag is
the handler name or unknown. -/
theorem c10_fixed_tags_override (sink : SinkBehavior) (subjects : List String)
    (default_subject : String) (ev : EventWrapper) (sub : Subscriber)
    (hs : ev.sender = some sub) (block : Block) (ctx : Context) (oblock : Option Block)
    (octx : Option Context) :
    (∃ o, logMessageSentEvent sink ev = .ok o ∧
      lookupKey "type" o.point.tags = some "message" ∧
      lookupKey "channel" o.point.tags = some (channelOf ev)) ∧
    (∃ o, logMessageReceivedEvent sink ev = .ok o ∧
      lookupKey "type" o.point.tags = some "message" ∧
      lookupKey "channel" o.point.tags = some (channelOf ev)) ∧
    (∃ o, logBlockEvent subjects default_subject sink ev block ctx = .ok o ∧
      lookupKey "type" o.point.tags = some "block" ∧
      lookupKey "channel" o.point.tags = some (channelOf ev)) ∧
    (∃ o, logFallbackEvent sink ev oblock octx = .ok o ∧
      lookupKey "type" o.point.tags = some "fallback" ∧
      lookupKey "channel" o.point.tags = some (channelOf ev)) := by
  have hch := channelOf_ne_empty ev
  refine ⟨?_, ?_, ?_, ?_⟩
  · simp only [logMessageSentEvent, hs]
    refine ⟨_, rfl, ?_, ?_⟩
    · rw [logEvent_point]
      exact (emitted_type_channel (getMessageTags ev) _ _ hch (by decide)).1
    · rw [logEvent_point]
      exact (emitted_type_channel (getMessageTags ev) _ _ hch (by decide)).2
  · simp only [logMessageReceivedEvent, hs]
    refine ⟨_, rfl, ?_, ?_⟩
    · rw [logEvent_point]
      exact (emitted_type_channel (getMessageTags ev) _ _ hch (by decide)).1
    · rw [logEvent_point]
      exact (emitted_type_channel (getMessageTags ev) _ _ hch (by decide)).2
  · simp only [logBlockEvent, hs]
    refine ⟨_, rfl, ?_, ?_⟩
    · rw [logEvent_point]
      exact (emitted_type_channel_subject (getMessageTags ev) _ _ _ hch (by decide)).1
    · rw [logEvent_point]
      exact (emitted_type_channel_subject (getMessageTags ev) _ _ _ hch (by decide)).2
  · simp only [logFallbackEvent, hs]
    refine ⟨_, rfl, ?_, ?_⟩
    · rw [logEvent_point]
      exact (emitted_type_channel (getMessageTags ev) _ _ hch (by decide)).1
    · rw [logEvent_point]
      exact (emitted_type_channel (getMessageTags ev) _ _ hch (by decide)).2

/-- Witness for C10: an event carrying NLP entities named type and channel
still receives the fixed message type tag and the handler channel tag. -/
theorem c10_fixed_tags_override_witness :
    ∃ o, logMessageSentEvent ⟨.ok, .ok⟩ ⟨some ⟨"id", "f", "J", "D", "fr", some "web", none⟩,
        some ⟨some [⟨"type", "weird"⟩, ⟨"channel", "bad"⟩]⟩, .vNull, "msgr"⟩ = .ok o ∧
      lookupKey "type" o.point.tags = some "message" ∧
      lookupKey "channel" o.point.tags =
        some (channelOf ⟨some ⟨"id", "f", "J", "D", "fr", some "web", none⟩,
          some ⟨some [⟨"type", "weird"⟩, ⟨"channel", "bad"⟩]⟩, .vNull, "msgr"⟩) :=
  (c10_fixed_tags_override ⟨.ok, .ok⟩ [] "Other"
    ⟨some ⟨"id", "f", "J", "D", "fr", some "web", none⟩,
      some ⟨some [⟨"type", "weird"⟩, ⟨"channel", "bad"⟩]⟩, .vNull, "msgr"⟩
    ⟨"id", "f", "J", "D", "fr", some "web", none⟩ rfl ⟨"B", false⟩
    ⟨0, none, ⟨"id", "f", "J", "D", "fr", some "web", none⟩⟩ none none).1

end InfluxdbHelper
